import Mathlib

/-!
Shallow embedding of the core client/server logic of the recipe-generator
web application (file `src/combined.ts`): result shaping (`filterResults`),
list reconciliation (`updateRecipeList`), search filtering
(`getFilteredRecipes`), the recipe-creation wizard state machine
(`updateStep`, `handleIngredientSubmit`, `handleRecipeSubmit`, navigation
guards), the new-ingredient validation gate (`handleSubmit` of
`NewIngredientDialog`), and the `openaiPromptId` tagging/stripping used
between generation and persistence.

JavaScript built-ins that the source relies on (`Array.prototype.slice`
with negative indices, `String.prototype.includes`,
`String.prototype.split`) are embedded explicitly below with their
JavaScript semantics.
-/

/-- A populated user reference as it appears in `ExtendedRecipe.owner` and
`ExtendedRecipe.likedBy` (`src/combined.ts`, type `ExtendedRecipe`). -/
structure UserRef where
  _id : String
  name : String
  image : String
deriving DecidableEq, Repr

/-- `RecipeIngredient` from `src/combined.ts`. -/
structure RecipeIngredient where
  name : String
  quantity : String
deriving DecidableEq, Repr

/-- `AdditionalInformation` from `src/combined.ts`. -/
structure AdditionalInformation where
  tips : String
  variations : String
  servingSuggestions : String
  nutritionalInformation : String
deriving DecidableEq, Repr

/-- `Recipe` from `src/combined.ts` (a generated, not yet persisted recipe). -/
structure Recipe where
  name : String
  ingredients : List RecipeIngredient
  instructions : List String
  dietaryPreference : List String
  additionalInformation : AdditionalInformation
  openaiPromptId : String
deriving DecidableEq, Repr

/-- `ExtendedRecipe` from `src/combined.ts`: a recipe as returned to the
client, with owner/likedBy populated and the derived `owns`/`liked` flags. -/
structure ExtendedRecipe where
  name : String
  ingredients : List RecipeIngredient
  instructions : List String
  dietaryPreference : List String
  additionalInformation : AdditionalInformation
  openaiPromptId : String
  _id : String
  imgLink : String
  owner : UserRef
  createdAt : String
  updatedAt : String
  likedBy : List UserRef
  owns : Bool
  liked : Bool
deriving DecidableEq, Repr

/-- Client-side `Ingredient` type from `src/combined.ts`. -/
structure Ingredient where
  name : String
  quantity : Option Int
  id : String
deriving DecidableEq, Repr

/-- `IngredientDocumentType` from `src/combined.ts` (catalog entry). -/
structure IngredientDocumentType where
  _id : String
  name : String
  createdBy : Option String
  createdAt : String
deriving DecidableEq, Repr

/-- JavaScript `Array.prototype.slice` index normalisation: a negative
index counts from the end (clamped to 0), a non-negative index is clamped
to the length. -/
def jsNormIdx (len : Nat) (i : Int) : Nat :=
  if i < 0 then ((len : Int) + i).toNat else min i.toNat len

/-- JavaScript `arr.slice(start, stop)`. -/
def jsSlice (l : List α) (start stop : Int) : List α :=
  (l.take (jsNormIdx l.length stop)).drop (jsNormIdx l.length start)

/-- JavaScript `arr.slice(start)` (one-argument form: up to the end). -/
def jsSliceFrom (l : List α) (start : Int) : List α :=
  l.drop (jsNormIdx l.length start)

/-- The per-recipe body of `filterResults` (`src/combined.ts`): reduce
`owner` and every `likedBy` entry to `{_id, name, image}` and recompute
the `owns` and `liked` flags for the given user. -/
def shapeRecipe (userId : String) (recipe : ExtendedRecipe) : ExtendedRecipe :=
  { recipe with
    owner := { _id := recipe.owner._id, name := recipe.owner.name, image := recipe.owner.image }
    likedBy := recipe.likedBy.map (fun l => { _id := l._id, name := l.name, image := l.image })
    owns := recipe.owner._id == userId
    liked := recipe.likedBy.any (fun l => l._id == userId) }

/-- `filterResults` from `src/combined.ts`: maps `shapeRecipe` over the
list. -/
def filterResults (recipes : List ExtendedRecipe) (userId : String) : List ExtendedRecipe :=
  recipes.map (shapeRecipe userId)

/-- `updateRecipeList` from `src/combined.ts`: `findIndex` (−1 when absent)
followed by the two `slice`-based rebuilds, exactly as in the source. The
comparison `p._id === (newRecipe ? newRecipe._id : deleteId)` is false for
every entry when `deleteId` is `undefined` (`none`). -/
def updateRecipeList (oldList : List ExtendedRecipe) (newRecipe : Option ExtendedRecipe)
    (deleteId : Option String) : List ExtendedRecipe :=
  let targetId : Option String :=
    match newRecipe with
    | some r => some r._id
    | none => deleteId
  let indexOfUpdate : Int :=
    match oldList.findIdx? (fun p => some p._id == targetId) with
    | some i => (i : Int)
    | none => -1
  match newRecipe with
  | some r =>
      jsSlice oldList 0 indexOfUpdate ++ [r] ++ jsSliceFrom oldList (indexOfUpdate + 1)
  | none =>
      jsSlice oldList 0 indexOfUpdate ++ jsSliceFrom oldList (indexOfUpdate + 1)

/-- JavaScript `text.startsWith(pat)` on character lists. -/
def strStartsWith : List Char → List Char → Bool
  | [], _ => true
  | _ :: _, [] => false
  | a :: as, b :: bs => a == b && strStartsWith as bs

/-- JavaScript substring containment on character lists. -/
def strContainsSub (pat : List Char) : List Char → Bool
  | [] => strStartsWith pat []
  | c :: rest => strStartsWith pat (c :: rest) || strContainsSub pat rest

/-- JavaScript `s.includes(sub)`. -/
def jsIncludes (s sub : String) : Bool :=
  strContainsSub sub.data s.data

/-- JavaScript `s.toLowerCase()` (character-wise lowering). -/
def jsToLower (s : String) : String :=
  String.mk (s.data.map Char.toLower)

/-- JavaScript `s.trim()`: whitespace removed from both ends. -/
def jsTrim (s : String) : String :=
  String.mk (((s.data.dropWhile Char.isWhitespace).reverse.dropWhile Char.isWhitespace).reverse)

/-- `getFilteredRecipes` from `src/combined.ts`: returns the list unchanged
for a falsy search value (`null` or the empty string); otherwise keeps
entries where the search string occurs in the lowercased name, some
lowercased ingredient name, or some lowercased dietary-preference tag.
Note the source lowercases the fields but not the search string. -/
def getFilteredRecipes (recipes : List ExtendedRecipe) (search : Option String) :
    List ExtendedRecipe :=
  match search with
  | none => recipes
  | some s =>
    if s = "" then recipes
    else
      recipes.filter (fun r =>
        let isFoundInName := jsIncludes (jsToLower r.name) s
        let isFoundInIngredients :=
          r.ingredients.filter (fun ingredient => jsIncludes (jsToLower ingredient.name) s)
        let isFoundInDiets :=
          r.dietaryPreference.filter (fun diet => jsIncludes (jsToLower diet) s)
        isFoundInName || !isFoundInIngredients.isEmpty || !isFoundInDiets.isEmpty)

/-- The spec-side case-insensitive match predicate, stated from the spec's
words for comparison with `getFilteredRecipes`: the query, ignoring letter
case of both the query and the field, is a substring of the recipe name,
of some ingredient name, or of some dietary-preference tag. -/
def ciMatchSpec (search : String) (r : ExtendedRecipe) : Bool :=
  jsIncludes (jsToLower r.name) (jsToLower search) ||
  r.ingredients.any (fun ingredient => jsIncludes (jsToLower ingredient.name) (jsToLower search)) ||
  r.dietaryPreference.any (fun diet => jsIncludes (jsToLower diet) (jsToLower search))

/-- The wizard step titles (`steps` in `src/combined.ts`). -/
def steps : List String :=
  ["Choose Ingredients", "Choose Diet", "Review and Create Recipes",
   "Select Recipes", "Review and Save Recipes"]

/-- `updateStep` from `src/combined.ts`: add the delta; a computed step
below 0 or at/after `steps.length` is reset to 0. -/
def updateStep (step val : Int) : Int :=
  let newStep := step + val
  if newStep < 0 ∨ (steps.length : Int) ≤ newStep then 0 else newStep

/-- The local state of the `CreateRecipe` page component
(`useState` hooks in `src/combined.ts`). -/
structure WorkflowState where
  step : Int
  ingredients : List Ingredient
  preferences : List String
  generatedRecipes : List Recipe
  selectedRecipeIds : List String
  isLoading : Bool
deriving DecidableEq, Repr

/-- The `setIsLoading(true)` performed at the top of both submit handlers,
before the network call is dispatched. -/
def startLoading (s : WorkflowState) : WorkflowState :=
  { s with isLoading := true }

/-- Client-side tagging in `handleIngredientSubmit`: candidate `idx` of a
batch gets `openaiPromptId` = `` `${openaiPromptId}-${idx}` ``. -/
def tagGeneratedRecipes (openaiPromptId : String) (parsedRecipes : List Recipe) : List Recipe :=
  parsedRecipes.enum.map
    (fun ir => { ir.2 with openaiPromptId := openaiPromptId ++ "-" ++ toString ir.1 })

/-- Resolution of `handleIngredientSubmit`'s awaited call: on success
(`some (parsedRecipes, openaiPromptId)`) loading is cleared, the tagged
batch stored and the step incremented; on failure the `catch` only logs,
so the state after `setIsLoading(true)` is kept. -/
def handleIngredientSubmitResolve (s : WorkflowState)
    (outcome : Option (List Recipe × String)) : WorkflowState :=
  match outcome with
  | some (parsedRecipes, openaiPromptId) =>
      { s with
        isLoading := false
        generatedRecipes := tagGeneratedRecipes openaiPromptId parsedRecipes
        step := s.step + 1 }
  | none => s

/-- `handleIngredientSubmit` from `src/combined.ts`: sets loading, then
resolves the generation call with the given outcome. -/
def handleIngredientSubmit (s : WorkflowState)
    (outcome : Option (List Recipe × String)) : WorkflowState :=
  handleIngredientSubmitResolve (startLoading s) outcome

/-- Resolution of `handleRecipeSubmit`'s awaited call: on success loading
is cleared, ingredients/preferences/candidates/selection reset and the
step set to 0; on failure the `catch` only logs. -/
def handleRecipeSubmitResolve (s : WorkflowState) (success : Bool) : WorkflowState :=
  if success then
    { s with
      isLoading := false
      ingredients := []
      preferences := []
      generatedRecipes := []
      selectedRecipeIds := []
      step := 0 }
  else s

/-- `handleRecipeSubmit` from `src/combined.ts`: sets loading, then
resolves the save call with the given outcome. -/
def handleRecipeSubmit (s : WorkflowState) (success : Bool) : WorkflowState :=
  handleRecipeSubmitResolve (startLoading s) success

/-- Disabled condition of the Prev button (`disabled={step === 0}`). -/
def prevDisabled (s : WorkflowState) : Bool :=
  s.step == 0

/-- Disabled condition of the Next button
(`disabled={step === steps.length - 1 || step === 2 && !generatedRecipes.length}`). -/
def nextDisabled (s : WorkflowState) : Bool :=
  s.step == (steps.length : Int) - 1 || (s.step == 2 && s.generatedRecipes.isEmpty)

/-- Disabled condition of the Create Recipes button in `ReviewComponent`
(`disabled={ingredients.length < 3 || Boolean(generatedRecipes.length)}`). -/
def createRecipesDisabled (s : WorkflowState) : Bool :=
  decide (s.ingredients.length < 3) || !s.generatedRecipes.isEmpty

/-- `finalRecipes` in `ReviewRecipesComponent`: the generated recipes whose
`openaiPromptId` is in the selection set. -/
def finalRecipes (s : WorkflowState) : List Recipe :=
  s.generatedRecipes.filter (fun r => s.selectedRecipeIds.contains r.openaiPromptId)

/-- User-interface events of the wizard. A click on a disabled button, or
on a button that is not rendered at the current step, leaves the state
unchanged. -/
inductive WorkflowEvent where
  | prevClick
  | nextClick
  | createRecipesClick (outcome : Option (List Recipe × String))
  | submitSelectedClick (success : Bool)
deriving DecidableEq, Repr

/-- One step of the wizard: Prev/Next run `updateStep` when enabled; the
Create Recipes button exists only at step 2 (via `StepComponent`) and runs
`handleIngredientSubmit` when enabled; the Submit Selected button exists
only at step 4 and only when `finalRecipes` is non-empty, and runs
`handleRecipeSubmit`. -/
def applyEvent (s : WorkflowState) (e : WorkflowEvent) : WorkflowState :=
  match e with
  | .prevClick =>
      if prevDisabled s then s else { s with step := updateStep s.step (-1) }
  | .nextClick =>
      if nextDisabled s then s else { s with step := updateStep s.step 1 }
  | .createRecipesClick outcome =>
      if s.step == 2 && !createRecipesDisabled s then handleIngredientSubmit s outcome else s
  | .submitSelectedClick success =>
      if s.step == 4 && !(finalRecipes s).isEmpty then handleRecipeSubmit s success else s

/-- Outcome of the pre-validation gate in `NewIngredientDialog.handleSubmit`
(`src/combined.ts`): which branch runs before (or instead of) the external
`/api/validate-ingredient` call. -/
inductive GateResult where
  | emptyNoop
  | tooLong
  | duplicate
  | callValidator
deriving DecidableEq, Repr

/-- The `isAvailable` duplicate test of `handleSubmit` in
`NewIngredientDialog` (`src/combined.ts`): the lowercased trimmed
candidate, its pluralized form, or its singularized form already occurs in
the lowercased catalog. The external `pluralize` library is passed in as
the two functions `pluralizeFn` and `singularFn`. -/
def gateDuplicate (pluralizeFn singularFn : String → String)
    (ingredientList : List IngredientDocumentType) (ingredientName : String) : Bool :=
  let ingredient := jsToLower (jsTrim ingredientName)
  let availableIngredients := ingredientList.map (fun i => jsToLower i.name)
  let pluralizedIngredient := pluralizeFn ingredient
  let singularizedIngredient := singularFn ingredient
  availableIngredients.contains ingredient ||
  availableIngredients.contains pluralizedIngredient ||
  availableIngredients.contains singularizedIngredient

/-- The local gate of `handleSubmit` in `NewIngredientDialog`
(`src/combined.ts`): empty input is ignored; a trimmed name longer than 20
characters is rejected; a duplicate (per `gateDuplicate`) is rejected;
otherwise the external validator is called. -/
def handleSubmit (pluralizeFn singularFn : String → String)
    (ingredientList : List IngredientDocumentType) (ingredientName : String) : GateResult :=
  if jsTrim ingredientName = "" then .emptyNoop
  else if 20 < (jsTrim ingredientName).length then .tooLong
  else if gateDuplicate pluralizeFn singularFn ingredientList ingredientName then .duplicate
  else .callValidator

/-- JavaScript `String.prototype.split` on a single-character separator,
on character lists (the accumulator holds the current segment reversed). -/
def jsSplitCharAux (sep : Char) : List Char → List Char → List (List Char)
  | [], acc => [acc.reverse]
  | c :: rest, acc =>
      if c = sep then acc.reverse :: jsSplitCharAux sep rest []
      else jsSplitCharAux sep rest (c :: acc)

/-- JavaScript `s.split(sep)` for a one-character separator string. -/
def jsSplit (s : String) (sep : Char) : List String :=
  (jsSplitCharAux sep s.data []).map (fun cs => String.mk cs)

/-- The save-recipes API handler's rewrite
`openaiPromptId: r.openaiPromptId.split('-')[0]` (`src/combined.ts`). -/
def stripPromptId (s : String) : String :=
  ((jsSplit s '-').headD "")

/-- The per-recipe `openaiPromptId` rewrite performed by the save-recipes
handler over the submitted batch. -/
def saveRewritePromptIds (recipes : List Recipe) : List Recipe :=
  recipes.map (fun r => { r with openaiPromptId := stripPromptId r.openaiPromptId })

/-- A minimal concrete recipe used as input for witnesses. -/
def sampleRecipe (pid : String) : Recipe :=
  { name := "Omelette"
    ingredients := [{ name := "Egg", quantity := "3" }]
    instructions := ["Beat", "Fry"]
    dietaryPreference := ["Vegetarian"]
    additionalInformation :=
      { tips := "", variations := "", servingSuggestions := "", nutritionalInformation := "" }
    openaiPromptId := pid }

/-- A minimal concrete client recipe view used for witnesses and
counterexamples; `_id` and the searchable fields are parameters. -/
def sampleView (id nm ing diet : String) : ExtendedRecipe :=
  { name := nm
    ingredients := [{ name := ing, quantity := "1" }]
    instructions := []
    dietaryPreference := [diet]
    additionalInformation :=
      { tips := "", variations := "", servingSuggestions := "", nutritionalInformation := "" }
    openaiPromptId := ""
    _id := id
    imgLink := ""
    owner := { _id := "u1", name := "Ann", image := "" }
    createdAt := ""
    updatedAt := ""
    likedBy := []
    owns := false
    liked := false }

/-- A concrete workflow state used for witnesses and counterexamples. -/
def sampleState (st : Int) (ings : List Ingredient) (gen : List Recipe)
    (sel : List String) : WorkflowState :=
  { step := st
    ingredients := ings
    preferences := ["Vegan"]
    generatedRecipes := gen
    selectedRecipeIds := sel
    isLoading := false }

/-- Three concrete client-side ingredients. -/
def sampleIngredients : List Ingredient :=
  [{ name := "Egg", quantity := none, id := "i1" },
   { name := "Flour", quantity := none, id := "i2" },
   { name := "Milk", quantity := none, id := "i3" }]

lemma findIdx?_none_of_pred_false {α : Type _} {p : α → Bool} {l : List α}
    (h : ∀ a ∈ l, p a = false) : l.findIdx? p = none := by
  induction l with
  | nil => rfl
  | cons a l ih =>
      have ha := h a (List.mem_cons_self a l)
      have hl : ∀ x ∈ l, p x = false := fun x hx => h x (List.mem_cons_of_mem a hx)
      simp [List.findIdx?_cons, ha, ih hl]

lemma findIdx?_append_cons {α : Type _} {p : α → Bool} {l₁ l₂ : List α} {x : α}
    (h1 : ∀ a ∈ l₁, p a = false) (hx : p x = true) :
    (l₁ ++ x :: l₂).findIdx? p = some l₁.length := by
  induction l₁ with
  | nil => simp [List.findIdx?_cons, hx]
  | cons a l ih =>
      have ha := h1 a (List.mem_cons_self a l)
      have hl : ∀ y ∈ l, p y = false := fun y hy => h1 y (List.mem_cons_of_mem a hy)
      simp [List.findIdx?_cons, ha, ih hl]

lemma jsNormIdx_ofNat (len n : Nat) : jsNormIdx len (n : Int) = min n len := by
  simp [jsNormIdx]

lemma jsNormIdx_zero (len : Nat) : jsNormIdx len 0 = 0 := by
  simp [jsNormIdx]

lemma jsNormIdx_of_le (len n : Nat) (h : n ≤ len) : jsNormIdx len (n : Int) = n := by
  rw [jsNormIdx_ofNat]
  exact Nat.min_eq_left h

lemma jsSlice_zero_natLen {α : Type _} (l₁ l₂ : List α) :
    jsSlice (l₁ ++ l₂) 0 (l₁.length : Int) = l₁ := by
  simp only [jsSlice, jsNormIdx_zero, List.drop_zero]
  rw [jsNormIdx_of_le _ _ (by simp), List.take_left]

lemma jsSliceFrom_natLen {α : Type _} (l₁ l₂ : List α) :
    jsSliceFrom (l₁ ++ l₂) (l₁.length : Int) = l₂ := by
  simp only [jsSliceFrom]
  rw [jsNormIdx_of_le _ _ (by simp), List.drop_left]

lemma jsSlice_zero_neg_one {α : Type _} (l : List α) :
    jsSlice l 0 (-1) = l.dropLast := by
  have h1 : jsNormIdx l.length (-1) = l.length - 1 := by
    simp [jsNormIdx]
    omega
  have h0 : jsNormIdx l.length 0 = 0 := by simp [jsNormIdx]
  simp [jsSlice, h0, h1, List.dropLast_eq_take]

lemma jsSliceFrom_zero {α : Type _} (l : List α) : jsSliceFrom l 0 = l := by
  simp [jsSliceFrom, jsNormIdx]

/-- Claim C1: for a list with exactly one entry matching `updated._id`,
`updateRecipeList` replaces that entry in place, keeping length and the
relative order of all other entries; for a list with `deleteId` present
exactly once, the matching entry is removed and all others stay in order.
Stated with the matching entry isolated as `l₁ ++ x :: l₂`, no match in the
prefix (uniqueness makes the first match the unique one). -/
theorem updateRecipeList_replace_and_delete
    (l₁ l₂ : List ExtendedRecipe) (x r : ExtendedRecipe) (d : Option String)
    (h1 : ∀ y ∈ l₁, y._id ≠ r._id) (h2 : x._id = r._id) :
    updateRecipeList (l₁ ++ x :: l₂) (some r) d = l₁ ++ r :: l₂ ∧
    updateRecipeList (l₁ ++ x :: l₂) none (some x._id) = l₁ ++ l₂ := by
  have hpred : ∀ y ∈ l₁, (some y._id == some r._id) = false := by
    intro y hy
    simp [h1 y hy]
  have hfind : (l₁ ++ x :: l₂).findIdx? (fun p => some p._id == some r._id) = some l₁.length :=
    findIdx?_append_cons hpred (by simp [h2])
  have hpred' : ∀ y ∈ l₁, (some y._id == some x._id) = false := by
    intro y hy
    simp [h2 ▸ h1 y hy]
  have hfind' : (l₁ ++ x :: l₂).findIdx? (fun p => some p._id == some x._id) = some l₁.length :=
    findIdx?_append_cons hpred' (by simp)
  have hdrop : jsSliceFrom (l₁ ++ x :: l₂) ((l₁.length : Int) + 1) = l₂ := by
    have : (l₁ ++ x :: l₂) = (l₁ ++ [x]) ++ l₂ := by simp
    rw [this]
    have hlen : ((l₁ ++ [x]).length : Int) = (l₁.length : Int) + 1 := by simp
    rw [← hlen, jsSliceFrom_natLen]
  have htake : jsSlice (l₁ ++ x :: l₂) 0 (l₁.length : Int) = l₁ :=
    jsSlice_zero_natLen l₁ (x :: l₂)
  constructor
  · simp only [updateRecipeList, hfind]
    rw [htake, hdrop]
    simp
  · simp only [updateRecipeList, hfind']
    rw [htake, hdrop]

/-- Claim C1 witness. -/
theorem updateRecipeList_replace_and_delete_witness :
    updateRecipeList [sampleView "a" "A" "B" "C", sampleView "b" "A" "B" "C"]
        (some (sampleView "b" "X" "Y" "Z")) none
      = [sampleView "a" "A" "B" "C", sampleView "b" "X" "Y" "Z"] ∧
    updateRecipeList [sampleView "a" "A" "B" "C", sampleView "b" "A" "B" "C"]
        none (some "b")
      = [sampleView "a" "A" "B" "C"] := by
  have h := updateRecipeList_replace_and_delete
    [sampleView "a" "A" "B" "C"] [] (sampleView "b" "A" "B" "C") (sampleView "b" "X" "Y" "Z")
    none (by decide) (by decide)
  simpa using h

/-- Claim C2 counterexample: with no matching entry, `findIndex` returns −1
and the slice arithmetic is not a no-op: on a one-element list the update
form returns `[updated, original]`, not the unchanged list. -/
theorem updateRecipeList_no_match_counterexample :
    updateRecipeList [sampleView "a" "A" "B" "C"] (some (sampleView "b" "X" "Y" "Z")) none
      ≠ [sampleView "a" "A" "B" "C"] := by
  decide

/-- Claim C2 amended: when no entry matches, `updateRecipeList` is **not**
a no-op: `slice(0, -1)` drops the last element and `slice(0)` yields the
whole list, so the update form returns
`dropLast(list) ++ [updated] ++ list` and the delete form returns
`dropLast(list) ++ list`. -/
theorem updateRecipeList_no_match
    (l : List ExtendedRecipe) (r : ExtendedRecipe) (d : Option String)
    (h1 : ∀ y ∈ l, y._id ≠ r._id) (h2 : ∀ y ∈ l, some y._id ≠ d) :
    updateRecipeList l (some r) d = l.dropLast ++ r :: l ∧
    updateRecipeList l none d = l.dropLast ++ l := by
  have hfind : l.findIdx? (fun p => some p._id == some r._id) = none :=
    findIdx?_none_of_pred_false (fun y hy => by simp [h1 y hy])
  have hfind' : l.findIdx? (fun p => some p._id == d) = none :=
    findIdx?_none_of_pred_false (fun y hy => by
      have := h2 y hy
      cases d with
      | none => simp
      | some s => simp_all)
  constructor
  · simp only [updateRecipeList, hfind]
    rw [show (-1 : Int) + 1 = 0 by norm_num, jsSlice_zero_neg_one, jsSliceFrom_zero]
    simp
  · simp only [updateRecipeList, hfind']
    rw [show (-1 : Int) + 1 = 0 by norm_num, jsSlice_zero_neg_one, jsSliceFrom_zero]

/-- Claim C2 amended witness. -/
theorem updateRecipeList_no_match_witness :
    updateRecipeList [sampleView "a" "A" "B" "C"] (some (sampleView "b" "X" "Y" "Z")) none
      = [sampleView "b" "X" "Y" "Z", sampleView "a" "A" "B" "C"] ∧
    updateRecipeList [sampleView "a" "A" "B" "C"] none (some "b")
      = [sampleView "a" "A" "B" "C"] := by
  have h := updateRecipeList_no_match [sampleView "a" "A" "B" "C"]
    (sampleView "b" "X" "Y" "Z") (some "b") (by decide) (by decide)
  simpa using h

lemma not_filter_isEmpty_eq_any {α : Type _} (l : List α) (p : α → Bool) :
    (!(l.filter p).isEmpty) = l.any p := by
  induction l with
  | nil => rfl
  | cons a l ih => by_cases h : p a <;> simp [List.filter_cons, h, ih]

/-- Claim C3 counterexample: `getFilteredRecipes` lowercases the recipe
fields but not the query, so the query `"Tomato"` does not match an
ingredient named `"tomato"` even though it matches case-insensitively. -/
theorem getFilteredRecipes_case_counterexample :
    jsIncludes (jsToLower "tomato") (jsToLower "Tomato") = true ∧
    getFilteredRecipes [sampleView "a" "Dish" "tomato" "None"] (some "Tomato") = [] := by
  decide

/-- Claim C3 amended: matching lowercases only the recipe fields, not the
query, so `getFilteredRecipes` is case-insensitive exactly for queries
that are already lowercase (as produced by its caller, which lowercases
the search box value): for every query `s` with `jsToLower s = s`, an
entry is kept exactly when the query, ignoring letter case of the fields,
is a substring of the recipe name, of some ingredient name, or of some
dietary-preference tag (`ciMatchSpec`). A query containing an uppercase
letter (e.g. `"Tomato"`) can fail to match a field (`"tomato"`) that
matches case-insensitively. -/
theorem getFilteredRecipes_ci_lowercase_query
    (recipes : List ExtendedRecipe) (s : String)
    (hs : jsToLower s = s) (hne : s ≠ "") :
    getFilteredRecipes recipes (some s) = recipes.filter (ciMatchSpec s) := by
  have hpoint : ∀ r : ExtendedRecipe,
      (jsIncludes (jsToLower r.name) s ||
       !(r.ingredients.filter (fun ingredient => jsIncludes (jsToLower ingredient.name) s)).isEmpty ||
       !(r.dietaryPreference.filter (fun diet => jsIncludes (jsToLower diet) s)).isEmpty)
      = ciMatchSpec s r := by
    intro r
    rw [not_filter_isEmpty_eq_any, not_filter_isEmpty_eq_any]
    simp [ciMatchSpec, hs]
  simp only [getFilteredRecipes, if_neg hne]
  exact List.filter_congr (fun a _ => hpoint a)

/-- Claim C3 amended witness. -/
theorem getFilteredRecipes_ci_lowercase_query_witness :
    getFilteredRecipes [sampleView "a" "Dish" "Tomato" "None"] (some "tomato")
      = List.filter (ciMatchSpec "tomato") [sampleView "a" "Dish" "Tomato" "None"] ∧
    getFilteredRecipes [sampleView "a" "Dish" "Tomato" "None"] (some "tomato")
      = [sampleView "a" "Dish" "Tomato" "None"] := by
  refine ⟨?_, by decide⟩
  exact getFilteredRecipes_ci_lowercase_query _ "tomato" (by decide) (by decide)

lemma shapeRecipe_idem (userId : String) (r : ExtendedRecipe) :
    shapeRecipe userId (shapeRecipe userId r) = shapeRecipe userId r := by
  simp [shapeRecipe, List.map_map, List.any_map, Function.comp]

/-- Claim C9: `filterResults` is idempotent: re-applying it with the same
`userId` to its own output returns the same output. -/
theorem filterResults_idempotent (recipes : List ExtendedRecipe) (userId : String) :
    filterResults (filterResults recipes userId) userId = filterResults recipes userId := by
  have hfun : shapeRecipe userId ∘ shapeRecipe userId = shapeRecipe userId :=
    funext (fun r => shapeRecipe_idem userId r)
  simp only [filterResults, List.map_map, hfun]

/-- Claim C4: at step 4, `handleRecipeSubmit` on success resets
ingredients, preferences, generated candidates and the selection to empty
and sets the step to 0; on failure none of ingredients, preferences,
candidates, selection or step change (local state is cleared only on
confirmed success). -/
theorem handleRecipeSubmit_success_failure (s : WorkflowState) (_h : s.step = 4) :
    ((handleRecipeSubmit s true).ingredients = [] ∧
     (handleRecipeSubmit s true).preferences = [] ∧
     (handleRecipeSubmit s true).generatedRecipes = [] ∧
     (handleRecipeSubmit s true).selectedRecipeIds = [] ∧
     (handleRecipeSubmit s true).step = 0) ∧
    ((handleRecipeSubmit s false).ingredients = s.ingredients ∧
     (handleRecipeSubmit s false).preferences = s.preferences ∧
     (handleRecipeSubmit s false).generatedRecipes = s.generatedRecipes ∧
     (handleRecipeSubmit s false).selectedRecipeIds = s.selectedRecipeIds ∧
     (handleRecipeSubmit s false).step = s.step) := by
  simp [handleRecipeSubmit, handleRecipeSubmitResolve, startLoading]

/-- Claim C4 witness. -/
theorem handleRecipeSubmit_success_failure_witness :
    (handleRecipeSubmit (sampleState 4 sampleIngredients [sampleRecipe "b-0"] ["b-0"]) true).step
      = 0 ∧
    (handleRecipeSubmit (sampleState 4 sampleIngredients [sampleRecipe "b-0"] ["b-0"]) false).step
      = 4 := by
  have h := handleRecipeSubmit_success_failure
    (sampleState 4 sampleIngredients [sampleRecipe "b-0"] ["b-0"]) (by decide)
  exact ⟨h.1.2.2.2.2, h.2.2.2.2.2.trans (by decide)⟩

/-- Claim C5: at step 2 before any batch is generated, with fewer than 3
ingredients the Create Recipes submission is disabled and advancing past
step 2 is rejected (a Next click is a no-op because the Next button
requires a non-empty generated batch, and a Create Recipes click is a
no-op because the button is disabled); with at least 3 ingredients the
Create Recipes submission is enabled and a successful generation advances
the workflow to step 3. -/
theorem step2_transition_guard (s : WorkflowState)
    (h2 : s.step = 2) (hb : s.generatedRecipes = []) :
    (s.ingredients.length < 3 →
        createRecipesDisabled s = true ∧
        applyEvent s .nextClick = s ∧
        (∀ outcome, applyEvent s (.createRecipesClick outcome) = s)) ∧
    (3 ≤ s.ingredients.length →
        createRecipesDisabled s = false ∧
        (∀ parsed pid, (applyEvent s (.createRecipesClick (some (parsed, pid)))).step = 3)) := by
  constructor
  · intro hlt
    have hcd : createRecipesDisabled s = true := by
      simp [createRecipesDisabled, hlt]
    have hnd : nextDisabled s = true := by
      simp [nextDisabled, h2, hb]
    refine ⟨hcd, ?_, ?_⟩
    · simp [applyEvent, hnd]
    · intro outcome
      simp [applyEvent, hcd]
  · intro hge
    have hcd : createRecipesDisabled s = false := by
      simp [createRecipesDisabled, hb]
      omega
    refine ⟨hcd, ?_⟩
    intro parsed pid
    simp [applyEvent, h2, hcd, handleIngredientSubmit, handleIngredientSubmitResolve,
      startLoading]

/-- Claim C5 witness: with 2 ingredients a Next click at step 2 is a no-op;
with 3 ingredients a successful generation reaches step 3. -/
theorem step2_transition_guard_witness :
    applyEvent (sampleState 2 (sampleIngredients.take 2) [] []) .nextClick
      = sampleState 2 (sampleIngredients.take 2) [] [] ∧
    (applyEvent (sampleState 2 sampleIngredients [] [])
        (.createRecipesClick (some ([sampleRecipe "r"], "batch1")))).step = 3 := by
  refine ⟨?_, ?_⟩
  · exact ((step2_transition_guard (sampleState 2 (sampleIngredients.take 2) [] [])
      (by decide) (by decide)).1 (by decide)).2.1
  · exact ((step2_transition_guard (sampleState 2 sampleIngredients [] [])
      (by decide) (by decide)).2 (by decide)).2 [sampleRecipe "r"] "batch1"

/-- Claim C6 counterexample: after a failed generation or save call the
`catch` block only logs, so `isLoading` remains `true`; it is not set back
to false in every outcome. -/
theorem loading_reset_counterexample :
    (handleIngredientSubmit (sampleState 2 sampleIngredients [] []) none).isLoading ≠ false ∧
    (handleRecipeSubmit (sampleState 4 sampleIngredients [sampleRecipe "b-0"] ["b-0"])
        false).isLoading ≠ false := by
  decide

/-- Claim C6 amended: in both handlers the loading state is set to true
before the network call is dispatched, and is set back to false only when
the call succeeds; when the call fails the loading flag remains true. -/
theorem loading_reset_amended (s : WorkflowState) :
    (startLoading s).isLoading = true ∧
    (∀ parsed pid, (handleIngredientSubmit s (some (parsed, pid))).isLoading = false) ∧
    (handleIngredientSubmit s none).isLoading = true ∧
    (handleRecipeSubmit s true).isLoading = false ∧
    (handleRecipeSubmit s false).isLoading = true := by
  simp [startLoading, handleIngredientSubmit, handleIngredientSubmitResolve,
    handleRecipeSubmit, handleRecipeSubmitResolve]

/-- Claim C10: for every step in 0..4 and a navigation delta of ±1,
`updateStep` stays in 0..4; and every computed step outside the range
(below 0 or at/after `steps.length`) is reset to exactly 0, not clamped
to the nearest bound. -/
theorem updateStep_range :
    (∀ step val : Int, 0 ≤ step → step ≤ 4 → (val = 1 ∨ val = -1) →
        0 ≤ updateStep step val ∧ updateStep step val ≤ 4) ∧
    (∀ step val : Int, (step + val < 0 ∨ (steps.length : Int) ≤ step + val) →
        updateStep step val = 0) := by
  have hlen : ((steps.length : Nat) : Int) = 5 := by simp [steps]
  constructor
  · intro step val h0 h4 hval
    simp only [updateStep, hlen]
    rcases hval with h | h <;> subst h <;> split <;> omega
  · intro step val h
    rw [hlen] at h
    simp only [updateStep, hlen]
    split
    · rfl
    · omega

/-- Claim C10 witness. -/
theorem updateStep_range_witness :
    (0 ≤ updateStep 0 (-1) ∧ updateStep 0 (-1) ≤ 4) ∧ updateStep 4 1 = 0 :=
  ⟨updateStep_range.1 0 (-1) (by decide) (by decide) (Or.inr rfl),
   updateStep_range.2 4 1 (by simp [steps])⟩

/-- Claim C7: `handleSubmit` calls the external validator only when the
trimmed candidate has length at most 20 and none of its lowercased exact,
pluralized or singularized forms equals (case-insensitively) an existing
catalog name; a candidate whose trimmed form is longer than 20 characters
is rejected locally, and a non-empty candidate of acceptable length whose
exact/plural/singular form already exists is rejected locally as a
duplicate — in both cases no external call happens and the catalog is
untouched (the gate returns before the call, and the catalog is only
appended on a successful validator response). -/
theorem handleSubmit_gate (pl sg : String → String)
    (catalog : List IngredientDocumentType) (nm : String) :
    (handleSubmit pl sg catalog nm = .callValidator →
        (jsTrim nm).length ≤ 20 ∧ gateDuplicate pl sg catalog nm = false) ∧
    (20 < (jsTrim nm).length → handleSubmit pl sg catalog nm = .tooLong) ∧
    (jsTrim nm ≠ "" → (jsTrim nm).length ≤ 20 →
        gateDuplicate pl sg catalog nm = true →
        handleSubmit pl sg catalog nm = .duplicate) := by
  refine ⟨?_, ?_, ?_⟩
  · intro hcall
    by_cases h1 : jsTrim nm = ""
    · simp [handleSubmit, h1] at hcall
    · by_cases h2 : 20 < (jsTrim nm).length
      · simp [handleSubmit, h1, h2] at hcall
      · refine ⟨by omega, ?_⟩
        by_cases h3 : gateDuplicate pl sg catalog nm = true
        · simp [handleSubmit, h1, h2, h3] at hcall
        · simpa using h3
  · intro h2
    have h1 : jsTrim nm ≠ "" := by
      intro h
      rw [h] at h2
      simp at h2
    simp [handleSubmit, h1, h2]
  · intro h1 h2 h3
    have h2' : ¬ 20 < (jsTrim nm).length := by omega
    simp [handleSubmit, h1, h2', h3]

/-- Claim C7 witness: with catalog `["Tomato"]`, the candidate
`"tomatoes"` is rejected as a duplicate (its singularized form matches
case-insensitively) and a 25-character candidate is rejected for length —
both without reaching the validator branch. -/
theorem handleSubmit_gate_witness :
    handleSubmit (fun s => s ++ "s") (fun s => if s = "tomatoes" then "tomato" else s)
        [{ _id := "1", name := "Tomato", createdBy := none, createdAt := "" }] "tomatoes"
      = .duplicate ∧
    handleSubmit (fun s => s ++ "s") (fun s => if s = "tomatoes" then "tomato" else s)
        [{ _id := "1", name := "Tomato", createdBy := none, createdAt := "" }]
        "abcdefghijklmnopqrstuvwxy"
      = .tooLong := by
  refine ⟨?_, ?_⟩
  · exact (handleSubmit_gate _ _ _ _).2.2 (by decide) (by decide) (by decide)
  · exact (handleSubmit_gate _ _ _ _).2.1 (by decide)

lemma jsSplitCharAux_no_sep (sep : Char) (r : List Char) :
    ∀ (l acc : List Char), sep ∉ l →
      jsSplitCharAux sep (l ++ sep :: r) acc = (acc.reverse ++ l) :: jsSplitCharAux sep r [] := by
  intro l
  induction l with
  | nil => intro acc _; simp [jsSplitCharAux]
  | cons c cs ih =>
      intro acc h
      have hc : c ≠ sep := fun hcs => h (hcs ▸ List.mem_cons_self c cs)
      have hcs' : sep ∉ cs := fun hmem => h (List.mem_cons_of_mem c hmem)
      simp [jsSplitCharAux, hc, ih (c :: acc) hcs', List.append_assoc]

lemma stripPromptId_tag (B t : String) (hB : ('-' : Char) ∉ B.data) :
    stripPromptId (B ++ "-" ++ t) = B := by
  have hdata : (B ++ "-" ++ t).data = B.data ++ '-' :: t.data := by
    simp [String.data_append]
  simp only [stripPromptId, jsSplit, hdata]
  rw [jsSplitCharAux_no_sep _ _ _ _ hB]
  rfl

/-- Claim C8 counterexample: the generation service's fallback batch id
`"null-prompt-id"` contains the separator `-`, so `split('-')[0]` keeps
only `"null"`: the persisted `openaiPromptId` is not the original batch
id. -/
theorem promptId_roundtrip_counterexample :
    (saveRewritePromptIds (tagGeneratedRecipes "null-prompt-id" [sampleRecipe ""])).map
        (fun r => r.openaiPromptId) ≠ ["null-prompt-id"] := by
  decide

/-- Claim C8 amended: for every batch id `B` that contains no `-`
character (in particular every MongoDB ObjectId hex string), the client
tags candidate `i` with `B ++ "-" ++ i` and the save path's
`split('-')[0]` recovers exactly `B`, so every persisted recipe of the
batch has `openaiPromptId = B`. The round trip fails only for batch ids
containing `-`, such as the fallback id `"null-prompt-id"`. -/
theorem promptId_roundtrip (B : String) (hB : ('-' : Char) ∉ B.data)
    (recipes : List Recipe) :
    ∀ r ∈ saveRewritePromptIds (tagGeneratedRecipes B recipes), r.openaiPromptId = B := by
  intro r hr
  simp only [saveRewritePromptIds, List.mem_map] at hr
  obtain ⟨r', hr', rfl⟩ := hr
  simp only [tagGeneratedRecipes, List.mem_map] at hr'
  obtain ⟨ir, _, rfl⟩ := hr'
  exact stripPromptId_tag B (toString ir.1) hB

/-- Claim C8 amended witness. -/
theorem promptId_roundtrip_witness :
    ((saveRewritePromptIds (tagGeneratedRecipes "batch1" [sampleRecipe "x"])).headD
        (sampleRecipe "z")).openaiPromptId = "batch1" := by
  have h := promptId_roundtrip "batch1" (by decide) [sampleRecipe "x"]
  exact h _ (by decide)
